import Mathlib

/-!
Verification of the amortization engine of the streamlit mortgage calculator.

The repository contains two implementations of the same engine:

* `src/app.py`: module-level `monthly_payment` (the annuity formula) and
  `create_amortization_schedule`, whose loop clamps the running balance at 0.
* `src/mortgage.py`: the same `monthly_payment` formula, a schedule loop
  without any clamp that additionally records `year = math.ceil(i / 12)`,
  and `payments_df = df[["Year", "Remaining Balance"]].groupby("Year").min()`.

Python floats are modelled by exact rational arithmetic (`ℚ`); integers by
`ℕ`.  Note that in Python a float division by the float `0.0` raises
`ZeroDivisionError`; in the `ℚ` model `x / 0 = 0`, and the theorems about
the zero-rate defect exhibit the vanishing denominator explicitly.
-/

/-- `monthly_interest_rate = interest_rate / 100 / 12`
(app.py line 45, mortgage.py line 56). -/
def monthlyRate (annualRatePercent : ℚ) : ℚ :=
  annualRatePercent / 100 / 12

/-- `total_payments = loan_term * 12` (app.py line 46),
`number_of_payments = loan_term * 12` (mortgage.py line 57). -/
def numberOfPayments (termYears : ℕ) : ℕ :=
  termYears * 12

/-- The monthly payment, exactly as computed by app.py line 47 and
mortgage.py lines 58-62:
`loan_amount * (r * (1 + r) ** n) / ((1 + r) ** n - 1)`
with `r = monthlyRate`, `n = numberOfPayments`. -/
def monthly_payment (loan_amount annualRatePercent : ℚ) (loan_term : ℕ) : ℚ :=
  loan_amount
    * (monthlyRate annualRatePercent
        * (1 + monthlyRate annualRatePercent) ^ numberOfPayments loan_term)
    / ((1 + monthlyRate annualRatePercent) ^ numberOfPayments loan_term - 1)

/-- The annuity formula exactly as the spec words it (section 4.1):
`r = annualRatePercent / 100 / 12`, `n = termYears * 12`,
`payment = principal * (r * (1+r)^n) / ((1+r)^n - 1)`.
Stated separately from `monthly_payment` so that the code can be compared
against the spec. -/
def specAnnuityPayment (principal annualRatePercent : ℚ) (termYears : ℕ) : ℚ :=
  principal
    * ((annualRatePercent / 100 / 12)
        * (1 + annualRatePercent / 100 / 12) ^ (termYears * 12))
    / ((1 + annualRatePercent / 100 / 12) ^ (termYears * 12) - 1)

/-- One row of the app.py schedule (the dict appended at app.py lines 73-79):
`Payment`, `Payment Amount`, `Principal`, `Interest`, `Remaining Balance`. -/
structure PaymentRecord where
  payment_no : ℕ
  payment_amount : ℚ
  principal : ℚ
  interest : ℚ
  remaining_balance : ℚ
  deriving Repr, DecidableEq

/-- One row of the mortgage.py schedule (the list appended at mortgage.py
lines 82-91): `Month`, `Payment`, `Principal`, `Interest`,
`Remaining Balance`, `Year`. -/
structure MortgageRow where
  month : ℕ
  payment : ℚ
  principal : ℚ
  interest : ℚ
  remaining_balance : ℚ
  year : ℕ
  deriving Repr, DecidableEq

/-- `year = math.ceil(i / 12)` (mortgage.py line 81). -/
def yearOf (i : ℕ) : ℕ :=
  (⌈(i : ℚ) / 12⌉).toNat

/-- The loop body of app.py lines 64-79, recursing over the number of
remaining periods.  `i` is the current `payment_no`, `bal` the running
`remaining_balance`.  Each iteration computes
`interest = bal * r`, `principal = mp - interest`, subtracts the principal
from the balance and clamps a negative balance to 0 before emitting the row
(app.py lines 69-71). -/
def appScheduleRows (mp r : ℚ) : ℕ → ℕ → ℚ → List PaymentRecord
  | 0, _, _ => []
  | k + 1, i, bal =>
      let interest_payment := bal * r
      let principal_payment := mp - interest_payment
      let bal1 := bal - principal_payment
      let bal2 := if bal1 < 0 then 0 else bal1
      { payment_no := i, payment_amount := mp, principal := principal_payment,
        interest := interest_payment, remaining_balance := bal2 }
        :: appScheduleRows mp r k (i + 1) bal2

/-- `create_amortization_schedule` (app.py lines 57-81).  The Python loop
uses the module-level `monthly_payment`, which is computed from the same
three module-level inputs the function is called with. -/
def create_amortization_schedule (loan_amount interest_rate : ℚ)
    (loan_term : ℕ) : List PaymentRecord :=
  appScheduleRows (monthly_payment loan_amount interest_rate loan_term)
    (monthlyRate interest_rate) (numberOfPayments loan_term) 1 loan_amount

/-- The loop body of mortgage.py lines 77-91: identical arithmetic to
app.py's loop but with no clamp, and with the extra `Year` column. -/
def mortgageScheduleRows (mp r : ℚ) : ℕ → ℕ → ℚ → List MortgageRow
  | 0, _, _ => []
  | k + 1, i, bal =>
      let interest_payment := bal * r
      let principal_payment := mp - interest_payment
      let bal1 := bal - principal_payment
      { month := i, payment := mp, principal := principal_payment,
        interest := interest_payment, remaining_balance := bal1,
        year := yearOf i }
        :: mortgageScheduleRows mp r k (i + 1) bal1

/-- The full mortgage.py schedule (mortgage.py lines 76-91). -/
def mortgage_schedule (loan_amount interest_rate : ℚ)
    (loan_term : ℕ) : List MortgageRow :=
  mortgageScheduleRows (monthly_payment loan_amount interest_rate loan_term)
    (monthlyRate interest_rate) (numberOfPayments loan_term) 1 loan_amount

/-- Reduction of a nonempty pandas series by `min`; pandas returns NaN on an
empty series, which never arises for a `groupby` group (modelled as 0). -/
def seriesMin (l : List ℚ) : ℚ :=
  match l with
  | [] => 0
  | a :: t => t.foldl min a

/-- `payments_df = df[["Year", "Remaining Balance"]].groupby("Year").min()`
(mortgage.py line 100): the distinct `Year` values in ascending order, each
paired with the minimum `Remaining Balance` of its group. -/
def yearly_balances (rows : List MortgageRow) : List (ℕ × ℚ) :=
  ((rows.map fun row => row.year).dedup.mergeSort).map fun y =>
    (y, seriesMin ((rows.filter fun row => row.year == y).map
      fun row => row.remaining_balance))

/-- One step of the balance recurrence shared by both schedule loops:
`bal - (mp - bal * r)`. -/
def nextBalance (mp r bal : ℚ) : ℚ :=
  bal - (mp - bal * r)

/-- The unclamped running balance after `j` periods, starting from `bal`
(the mortgage.py loop state; also the app.py loop state whenever the clamp
never fires). -/
def balFrom (mp r bal : ℚ) : ℕ → ℚ
  | 0 => bal
  | j + 1 => nextBalance mp r (balFrom mp r bal j)

/-- One step of the app.py loop state: the balance recurrence followed by
the clamp of app.py lines 69-71. -/
def clampStep (mp r bal : ℚ) : ℚ :=
  if nextBalance mp r bal < 0 then 0 else nextBalance mp r bal

/-- The clamped running balance after `j` periods (the app.py loop state). -/
def clampBalFrom (mp r bal : ℚ) : ℕ → ℚ
  | 0 => bal
  | j + 1 => clampStep mp r (clampBalFrom mp r bal j)

/-- The closed form of the running balance after `j` of `n` periods. -/
def balanceFormula (P r : ℚ) (n j : ℕ) : ℚ :=
  P * ((1 + r) ^ n - (1 + r) ^ j) / ((1 + r) ^ n - 1)

lemma balFrom_shift (mp r bal : ℚ) (j : ℕ) :
    balFrom mp r (nextBalance mp r bal) j = balFrom mp r bal (j + 1) := by
  induction j with
  | zero => rfl
  | succ j ih => simp only [balFrom, ih]

lemma clampBalFrom_shift (mp r bal : ℚ) (j : ℕ) :
    clampBalFrom mp r (clampStep mp r bal) j = clampBalFrom mp r bal (j + 1) := by
  induction j with
  | zero => rfl
  | succ j ih => simp only [clampBalFrom, ih]

lemma balFrom_eq (mp r bal : ℚ) (hr : r ≠ 0) (j : ℕ) :
    balFrom mp r bal j = bal * (1 + r) ^ j - mp * ((1 + r) ^ j - 1) / r := by
  induction j with
  | zero => simp [balFrom]
  | succ j ih =>
      rw [balFrom, nextBalance, ih]
      field_simp
      ring

lemma balFrom_payment (P r : ℚ) (n : ℕ) (hr : r ≠ 0)
    (hD : (1 + r) ^ n - 1 ≠ 0) (j : ℕ) :
    balFrom (P * (r * (1 + r) ^ n) / ((1 + r) ^ n - 1)) r P j
      = balanceFormula P r n j := by
  rw [balFrom_eq _ _ _ hr, balanceFormula]
  field_simp
  ring

lemma denom_pos (r : ℚ) (hr : 0 < r) (n : ℕ) (hn : n ≠ 0) :
    0 < (1 + r) ^ n - 1 := by
  have h1 : (1 : ℚ) < 1 + r := by linarith
  have := one_lt_pow₀ h1 hn
  linarith

lemma balanceFormula_nonneg (P r : ℚ) (n j : ℕ) (hP : 0 ≤ P) (hr : 0 < r)
    (hn : n ≠ 0) (hj : j ≤ n) : 0 ≤ balanceFormula P r n j := by
  have h1 : (1 : ℚ) ≤ 1 + r := by linarith
  apply div_nonneg
  · exact mul_nonneg hP (by have := pow_le_pow_right₀ h1 hj; linarith)
  · exact (denom_pos r hr n hn).le

lemma balanceFormula_final (P r : ℚ) (n : ℕ) :
    balanceFormula P r n n = 0 := by
  simp [balanceFormula]

lemma balanceFormula_antitone (P r : ℚ) (n : ℕ) (hP : 0 ≤ P) (hr : 0 < r)
    (hn : n ≠ 0) {j k : ℕ} (hjk : j ≤ k) :
    balanceFormula P r n k ≤ balanceFormula P r n j := by
  have h1 : (1 : ℚ) ≤ 1 + r := by linarith
  rw [balanceFormula, balanceFormula, div_le_div_iff_of_pos_right (denom_pos r hr n hn)]
  have := pow_le_pow_right₀ h1 hjk
  nlinarith

/-- Abbreviation for the payment used by both schedule loops. -/
lemma monthly_payment_eq (P a : ℚ) (T : ℕ) :
    monthly_payment P a T
      = P * (monthlyRate a * (1 + monthlyRate a) ^ numberOfPayments T)
          / ((1 + monthlyRate a) ^ numberOfPayments T - 1) := rfl

lemma monthlyRate_pos (a : ℚ) (ha : 0 < a) : 0 < monthlyRate a := by
  unfold monthlyRate
  positivity

/-- The balance sequence generated by the engine's own payment, in closed
form, for a positive rate. -/
lemma balFrom_monthly_payment (P a : ℚ) (T : ℕ) (ha : 0 < a) (hT : T ≠ 0)
    (j : ℕ) :
    balFrom (monthly_payment P a T) (monthlyRate a) P j
      = balanceFormula P (monthlyRate a) (numberOfPayments T) j := by
  have hr := monthlyRate_pos a ha
  have hn : numberOfPayments T ≠ 0 := by
    unfold numberOfPayments
    omega
  exact balFrom_payment P (monthlyRate a) (numberOfPayments T) hr.ne'
    (denom_pos _ hr _ hn).ne' j

/-- The row emitted by the mortgage.py loop at 0-based offset `j` when the
loop starts at month `i` with balance `bal`. -/
def mortgageRowAt (mp r bal : ℚ) (i j : ℕ) : MortgageRow :=
  { month := i + j, payment := mp,
    principal := mp - balFrom mp r bal j * r,
    interest := balFrom mp r bal j * r,
    remaining_balance := balFrom mp r bal (j + 1),
    year := yearOf (i + j) }

/-- The row emitted by the app.py loop at 0-based offset `j`. -/
def appRowAt (mp r bal : ℚ) (i j : ℕ) : PaymentRecord :=
  { payment_no := i + j, payment_amount := mp,
    principal := mp - clampBalFrom mp r bal j * r,
    interest := clampBalFrom mp r bal j * r,
    remaining_balance := clampBalFrom mp r bal (j + 1) }

lemma mortgageRowAt_shift (mp r bal : ℚ) (i j : ℕ) :
    mortgageRowAt mp r bal i (j + 1)
      = mortgageRowAt mp r (nextBalance mp r bal) (i + 1) j := by
  unfold mortgageRowAt
  rw [balFrom_shift, balFrom_shift]
  have hij : i + (j + 1) = i + 1 + j := by omega
  rw [hij]

lemma appRowAt_shift (mp r bal : ℚ) (i j : ℕ) :
    appRowAt mp r bal i (j + 1)
      = appRowAt mp r (clampStep mp r bal) (i + 1) j := by
  unfold appRowAt
  rw [clampBalFrom_shift, clampBalFrom_shift]
  have hij : i + (j + 1) = i + 1 + j := by omega
  rw [hij]

lemma mortgageScheduleRows_eq_map (mp r : ℚ) :
    ∀ (k : ℕ), ∀ (i : ℕ) (bal : ℚ),
      mortgageScheduleRows mp r k i bal
        = (List.range k).map (mortgageRowAt mp r bal i) := by
  intro k
  induction k with
  | zero => intro i bal; rfl
  | succ k ih =>
      intro i bal
      rw [mortgageScheduleRows, List.range_succ_eq_map, List.map_cons,
        List.map_map]
      have hhead : mortgageRowAt mp r bal i 0
          = { month := i, payment := mp, principal := mp - bal * r,
              interest := bal * r,
              remaining_balance := bal - (mp - bal * r),
              year := yearOf i } := by
        simp [mortgageRowAt, balFrom, nextBalance]
      rw [hhead]
      have htail : mortgageScheduleRows mp r k (i + 1) (bal - (mp - bal * r))
          = (List.range k).map (mortgageRowAt mp r bal i ∘ Nat.succ) := by
        rw [ih (i + 1) (bal - (mp - bal * r))]
        apply List.map_congr_left
        intro j _
        have : mortgageRowAt mp r bal i (j + 1)
            = mortgageRowAt mp r (nextBalance mp r bal) (i + 1) j :=
          mortgageRowAt_shift mp r bal i j
        simpa [nextBalance, Function.comp] using this.symm
      exact congrArg _ htail

lemma appScheduleRows_eq_map (mp r : ℚ) :
    ∀ (k : ℕ), ∀ (i : ℕ) (bal : ℚ),
      appScheduleRows mp r k i bal
        = (List.range k).map (appRowAt mp r bal i) := by
  intro k
  induction k with
  | zero => intro i bal; rfl
  | succ k ih =>
      intro i bal
      rw [appScheduleRows, List.range_succ_eq_map, List.map_cons, List.map_map]
      have hhead : appRowAt mp r bal i 0
          = { payment_no := i, payment_amount := mp,
              principal := mp - bal * r, interest := bal * r,
              remaining_balance :=
                if bal - (mp - bal * r) < 0 then 0 else bal - (mp - bal * r) } := by
        simp [appRowAt, clampBalFrom, clampStep, nextBalance]
      rw [hhead]
      have htail : appScheduleRows mp r k (i + 1)
            (if bal - (mp - bal * r) < 0 then 0 else bal - (mp - bal * r))
          = (List.range k).map (appRowAt mp r bal i ∘ Nat.succ) := by
        have hstep : (if bal - (mp - bal * r) < 0 then (0 : ℚ)
            else bal - (mp - bal * r)) = clampStep mp r bal := by
          simp [clampStep, nextBalance]
        rw [hstep, ih (i + 1) (clampStep mp r bal)]
        apply List.map_congr_left
        intro j _
        have := appRowAt_shift mp r bal i j
        simpa [Function.comp] using this.symm
      exact congrArg _ htail

lemma mortgageScheduleRows_length (mp r : ℚ) (k i : ℕ) (bal : ℚ) :
    (mortgageScheduleRows mp r k i bal).length = k := by
  rw [mortgageScheduleRows_eq_map]
  simp

lemma appScheduleRows_length (mp r : ℚ) (k i : ℕ) (bal : ℚ) :
    (appScheduleRows mp r k i bal).length = k := by
  rw [appScheduleRows_eq_map]
  simp

lemma mortgage_schedule_get (P a : ℚ) (T : ℕ) (j : ℕ)
    (h : j < (mortgage_schedule P a T).length) :
    (mortgage_schedule P a T).get ⟨j, h⟩
      = mortgageRowAt (monthly_payment P a T) (monthlyRate a) P 1 j := by
  have hm := mortgageScheduleRows_eq_map (monthly_payment P a T)
    (monthlyRate a) (numberOfPayments T) 1 P
  have hj : j < numberOfPayments T := by
    have := mortgageScheduleRows_length (monthly_payment P a T)
      (monthlyRate a) (numberOfPayments T) 1 P
    unfold mortgage_schedule at h
    omega
  simp only [mortgage_schedule, List.get_eq_getElem] at h ⊢
  rw [List.getElem_of_eq hm h]
  simp [hj]

lemma app_schedule_get (P a : ℚ) (T : ℕ) (j : ℕ)
    (h : j < (create_amortization_schedule P a T).length) :
    (create_amortization_schedule P a T).get ⟨j, h⟩
      = appRowAt (monthly_payment P a T) (monthlyRate a) P 1 j := by
  have hm := appScheduleRows_eq_map (monthly_payment P a T)
    (monthlyRate a) (numberOfPayments T) 1 P
  have hj : j < numberOfPayments T := by
    have := appScheduleRows_length (monthly_payment P a T)
      (monthlyRate a) (numberOfPayments T) 1 P
    unfold create_amortization_schedule at h
    omega
  simp only [create_amortization_schedule, List.get_eq_getElem] at h ⊢
  rw [List.getElem_of_eq hm h]
  simp [hj]

lemma clampStep_nonneg (mp r bal : ℚ) : 0 ≤ clampStep mp r bal := by
  unfold clampStep
  split
  · exact le_refl 0
  · linarith [not_lt.mp (by assumption : ¬ nextBalance mp r bal < 0)]

lemma clampBalFrom_succ_nonneg (mp r bal : ℚ) (j : ℕ) :
    0 ≤ clampBalFrom mp r bal (j + 1) := by
  rw [clampBalFrom]
  exact clampStep_nonneg _ _ _

lemma clampBalFrom_eq_balFrom (mp r bal : ℚ) (k : ℕ)
    (h : ∀ j, j ≤ k → 0 ≤ balFrom mp r bal j) :
    ∀ j, j ≤ k → clampBalFrom mp r bal j = balFrom mp r bal j := by
  intro j
  induction j with
  | zero => intro _; rfl
  | succ j ih =>
      intro hj
      rw [clampBalFrom, ih (by omega), clampStep, if_neg]
      · rfl
      · have h1 : 0 ≤ balFrom mp r bal (j + 1) := h (j + 1) hj
        rw [balFrom] at h1
        exact not_lt.mpr h1

lemma mortgageScheduleRows_principal_sum (mp r : ℚ) :
    ∀ (k : ℕ), ∀ (i : ℕ) (bal : ℚ),
      ((mortgageScheduleRows mp r k i bal).map fun row => row.principal).sum
        = bal - balFrom mp r bal k := by
  intro k
  induction k with
  | zero => intro i bal; simp [mortgageScheduleRows, balFrom]
  | succ k ih =>
      intro i bal
      rw [mortgageScheduleRows]
      simp only [List.map_cons, List.sum_cons]
      rw [ih]
      have hb : bal - (mp - bal * r) = nextBalance mp r bal := rfl
      rw [hb, balFrom_shift, nextBalance]
      ring

lemma app_principal_map_eq (mp r : ℚ) (k i : ℕ) (bal : ℚ)
    (h : ∀ j, j ≤ k → 0 ≤ balFrom mp r bal j) :
    ((appScheduleRows mp r k i bal).map fun row => row.principal)
      = ((mortgageScheduleRows mp r k i bal).map fun row => row.principal) := by
  rw [appScheduleRows_eq_map, mortgageScheduleRows_eq_map, List.map_map,
    List.map_map]
  apply List.map_congr_left
  intro j hj
  have hjk : j ≤ k := le_of_lt (List.mem_range.mp hj)
  simp only [Function.comp, appRowAt, mortgageRowAt]
  rw [clampBalFrom_eq_balFrom mp r bal k h j hjk]

lemma engine_bal_nonneg (P a : ℚ) (T : ℕ) (hP : 0 ≤ P) (ha : 0 < a)
    (hT : T ≠ 0) (j : ℕ) (hj : j ≤ numberOfPayments T) :
    0 ≤ balFrom (monthly_payment P a T) (monthlyRate a) P j := by
  rw [balFrom_monthly_payment P a T ha hT]
  exact balanceFormula_nonneg P (monthlyRate a) (numberOfPayments T) j hP
    (monthlyRate_pos a ha) (by unfold numberOfPayments; omega) hj

lemma engine_bal_final (P a : ℚ) (T : ℕ) (ha : 0 < a) (hT : T ≠ 0) :
    balFrom (monthly_payment P a T) (monthlyRate a) P (numberOfPayments T)
      = 0 := by
  rw [balFrom_monthly_payment P a T ha hT]
  exact balanceFormula_final P (monthlyRate a) (numberOfPayments T)

lemma engine_bal_antitone (P a : ℚ) (T : ℕ) (hP : 0 ≤ P) (ha : 0 < a)
    (hT : T ≠ 0) {j k : ℕ} (hjk : j ≤ k) :
    balFrom (monthly_payment P a T) (monthlyRate a) P k
      ≤ balFrom (monthly_payment P a T) (monthlyRate a) P j := by
  rw [balFrom_monthly_payment P a T ha hT, balFrom_monthly_payment P a T ha hT]
  exact balanceFormula_antitone P (monthlyRate a) (numberOfPayments T) hP
    (monthlyRate_pos a ha) (by unfold numberOfPayments; omega) hjk

lemma engine_clamp_eq (P a : ℚ) (T : ℕ) (hP : 0 ≤ P) (ha : 0 < a)
    (hT : T ≠ 0) (j : ℕ) (hj : j ≤ numberOfPayments T) :
    clampBalFrom (monthly_payment P a T) (monthlyRate a) P j
      = balFrom (monthly_payment P a T) (monthlyRate a) P j := by
  exact clampBalFrom_eq_balFrom _ _ _ (numberOfPayments T)
    (fun m hm => engine_bal_nonneg P a T hP ha hT m hm) j hj

/-- Claim C1: for every input with positive principal, a term of at least
one year and a positive annual rate, `monthly_payment` returns exactly
`principal * (r * (1+r)^n) / ((1+r)^n - 1)` with `r = rate / 100 / 12` and
`n = termYears * 12`, the annuity formula as the spec words it. -/
theorem monthly_payment_matches_annuity_formula (P a : ℚ) (T : ℕ)
    (hP : 0 < P) (ha : 0 < a) (hT : 1 ≤ T) :
    monthly_payment P a T = specAnnuityPayment P a T := rfl

theorem monthly_payment_matches_annuity_formula_witness :
    (0 : ℚ) < 300000 ∧ (0 : ℚ) < 9 / 2 ∧ 1 ≤ 30
      ∧ monthly_payment 300000 (9 / 2) 30
          = specAnnuityPayment 300000 (9 / 2) 30 :=
  ⟨by norm_num, by norm_num, by norm_num,
    monthly_payment_matches_annuity_formula 300000 (9 / 2) 30 (by norm_num)
      (by norm_num) (by norm_num)⟩

/-- Claim C2 is refuted by the code: at `annualRatePercent = 0` the
denominator `(1+r)^n - 1` of the annuity formula is exactly 0 — the Python
code divides by zero (`ZeroDivisionError`) instead of taking a straight-line
branch, which does not exist.  Under the total division of `ℚ` the formula
yields 0, which is not `P / (T*12)`. -/
theorem monthly_payment_zero_rate_defect :
    monthlyRate 0 = 0
    ∧ (1 + monthlyRate 0) ^ numberOfPayments 30 - 1 = 0
    ∧ monthly_payment 300000 0 30 = 0
    ∧ (300000 : ℚ) / ((30 : ℚ) * 12) ≠ monthly_payment 300000 0 30 := by
  refine ⟨by norm_num [monthlyRate], by norm_num [monthlyRate], ?_, ?_⟩
  · norm_num [monthly_payment, monthlyRate]
  · norm_num [monthly_payment, monthlyRate]

/-- Claim C3 is refuted by the code: neither implementation validates its
inputs and no `InvalidInput` error exists.  With `principal = 0` (reachable
in mortgage.py as home value = deposit) or `principal = -100`, and with a
negative rate, no error occurs and a full 12-record one-year schedule is
produced. -/
theorem no_input_validation_defect :
    monthly_payment 0 (11 / 2) 1 = 0
    ∧ (create_amortization_schedule 0 (11 / 2) 1).length = 12
    ∧ (mortgage_schedule 0 (11 / 2) 1).length = 12
    ∧ (create_amortization_schedule (-100) (11 / 2) 1).length = 12
    ∧ (mortgage_schedule (-100) (11 / 2) 1).length = 12
    ∧ (mortgage_schedule 100 (-1) 1).length = 12 := by
  refine ⟨by norm_num [monthly_payment],
    appScheduleRows_length _ _ _ _ _,
    mortgageScheduleRows_length _ _ _ _ _,
    appScheduleRows_length _ _ _ _ _,
    mortgageScheduleRows_length _ _ _ _ _,
    mortgageScheduleRows_length _ _ _ _ _⟩

/-- Claim C8: both generators return exactly `termYears * 12` records, and
the record at 0-based position `j` carries the 1-based period index
`j + 1`; hence period indices are unique, strictly increasing and equal to
sequence position. -/
theorem schedule_length_and_period_index (P a : ℚ) (T : ℕ) :
    (create_amortization_schedule P a T).length = T * 12
    ∧ (mortgage_schedule P a T).length = T * 12
    ∧ (∀ j, ∀ h : j < (create_amortization_schedule P a T).length,
        ((create_amortization_schedule P a T).get ⟨j, h⟩).payment_no = j + 1)
    ∧ (∀ j, ∀ h : j < (mortgage_schedule P a T).length,
        ((mortgage_schedule P a T).get ⟨j, h⟩).month = j + 1) := by
  refine ⟨appScheduleRows_length _ _ _ _ _,
    mortgageScheduleRows_length _ _ _ _ _, ?_, ?_⟩
  · intro j h
    rw [app_schedule_get]
    simp only [appRowAt]
    omega
  · intro j h
    rw [mortgage_schedule_get]
    simp only [mortgageRowAt]
    omega

theorem schedule_length_and_period_index_witness :
    (create_amortization_schedule 1200 1200 1).length = 1 * 12
    ∧ (mortgage_schedule 1200 1200 1).length = 1 * 12
    ∧ ((create_amortization_schedule 1200 1200 1).get
        ⟨0, by decide⟩).payment_no = 0 + 1
    ∧ ((mortgage_schedule 1200 1200 1).get ⟨0, by decide⟩).month = 0 + 1 :=
  ⟨(schedule_length_and_period_index 1200 1200 1).1,
    (schedule_length_and_period_index 1200 1200 1).2.1,
    (schedule_length_and_period_index 1200 1200 1).2.2.1 0 (by decide),
    (schedule_length_and_period_index 1200 1200 1).2.2.2 0 (by decide)⟩

/-- Claim C10: every record of both schedules — the final one included —
carries exactly the value of `monthly_payment` as its payment amount; no
final-period reconciliation or rounding adjustment exists in either loop. -/
theorem schedule_payment_constant (P a : ℚ) (T : ℕ) :
    (∀ j, ∀ h : j < (create_amortization_schedule P a T).length,
        ((create_amortization_schedule P a T).get ⟨j, h⟩).payment_amount
          = monthly_payment P a T)
    ∧ (∀ j, ∀ h : j < (mortgage_schedule P a T).length,
        ((mortgage_schedule P a T).get ⟨j, h⟩).payment
          = monthly_payment P a T) := by
  constructor
  · intro j h
    rw [app_schedule_get]
    rfl
  · intro j h
    rw [mortgage_schedule_get]
    rfl

theorem schedule_payment_constant_witness :
    ((create_amortization_schedule 1200 1200 1).get
        ⟨11, by decide⟩).payment_amount = monthly_payment 1200 1200 1
    ∧ ((mortgage_schedule 1200 1200 1).get ⟨11, by decide⟩).payment
        = monthly_payment 1200 1200 1 :=
  ⟨(schedule_payment_constant 1200 1200 1).1 11 (by decide),
    (schedule_payment_constant 1200 1200 1).2 11 (by decide)⟩

/-- Claim C4: in both schedules, every record's interest portion equals the
running balance before that payment (which is `P` for the first record and
the previous record's remaining balance otherwise — conjunct two identifies
the running balance with the emitted balances) times the periodic rate, and
principal plus interest equals the payment amount exactly. -/
theorem schedule_interest_principal_split (P a : ℚ) (T : ℕ) :
    (∀ j, ∀ h : j < (create_amortization_schedule P a T).length,
        ((create_amortization_schedule P a T).get ⟨j, h⟩).interest
            = clampBalFrom (monthly_payment P a T) (monthlyRate a) P j
                * monthlyRate a
          ∧ ((create_amortization_schedule P a T).get ⟨j, h⟩).remaining_balance
            = clampBalFrom (monthly_payment P a T) (monthlyRate a) P (j + 1)
          ∧ ((create_amortization_schedule P a T).get ⟨j, h⟩).principal
              + ((create_amortization_schedule P a T).get ⟨j, h⟩).interest
            = ((create_amortization_schedule P a T).get ⟨j, h⟩).payment_amount)
    ∧ (∀ j, ∀ h : j < (mortgage_schedule P a T).length,
        ((mortgage_schedule P a T).get ⟨j, h⟩).interest
            = balFrom (monthly_payment P a T) (monthlyRate a) P j
                * monthlyRate a
          ∧ ((mortgage_schedule P a T).get ⟨j, h⟩).remaining_balance
            = balFrom (monthly_payment P a T) (monthlyRate a) P (j + 1)
          ∧ ((mortgage_schedule P a T).get ⟨j, h⟩).principal
              + ((mortgage_schedule P a T).get ⟨j, h⟩).interest
            = ((mortgage_schedule P a T).get ⟨j, h⟩).payment) := by
  constructor
  · intro j h
    rw [app_schedule_get]
    refine ⟨rfl, rfl, ?_⟩
    simp only [appRowAt]
    ring
  · intro j h
    rw [mortgage_schedule_get]
    refine ⟨rfl, rfl, ?_⟩
    simp only [mortgageRowAt]
    ring

theorem schedule_interest_principal_split_witness :
    ((create_amortization_schedule 1200 1200 1).get ⟨0, by decide⟩).interest
        = clampBalFrom (monthly_payment 1200 1200 1) (monthlyRate 1200) 1200 0
            * monthlyRate 1200
      ∧ ((create_amortization_schedule 1200 1200 1).get
            ⟨0, by decide⟩).principal
          + ((create_amortization_schedule 1200 1200 1).get
              ⟨0, by decide⟩).interest
        = ((create_amortization_schedule 1200 1200 1).get
            ⟨0, by decide⟩).payment_amount
      ∧ ((mortgage_schedule 1200 1200 1).get ⟨0, by decide⟩).principal
          + ((mortgage_schedule 1200 1200 1).get ⟨0, by decide⟩).interest
        = ((mortgage_schedule 1200 1200 1).get ⟨0, by decide⟩).payment :=
  ⟨((schedule_interest_principal_split 1200 1200 1).1 0 (by decide)).1,
    ((schedule_interest_principal_split 1200 1200 1).1 0 (by decide)).2.2,
    ((schedule_interest_principal_split 1200 1200 1).2 0 (by decide)).2.2⟩

/-- Claim C5: for valid inputs with a positive rate, the final record of
either schedule has remaining balance exactly 0 under the exact rational
model, and the principal portions over the whole schedule sum exactly to
the principal. -/
theorem schedule_final_balance_zero_and_principal_sum (P a : ℚ) (T : ℕ)
    (hP : 0 < P) (ha : 0 < a) (hT : 1 ≤ T) :
    (∀ h : T * 12 - 1 < (create_amortization_schedule P a T).length,
        ((create_amortization_schedule P a T).get
          ⟨T * 12 - 1, h⟩).remaining_balance = 0)
    ∧ (∀ h : T * 12 - 1 < (mortgage_schedule P a T).length,
        ((mortgage_schedule P a T).get
          ⟨T * 12 - 1, h⟩).remaining_balance = 0)
    ∧ ((create_amortization_schedule P a T).map fun row => row.principal).sum
        = P
    ∧ ((mortgage_schedule P a T).map fun row => row.principal).sum = P := by
  have hT0 : T ≠ 0 := by omega
  have hsz : T * 12 - 1 + 1 = numberOfPayments T := by
    unfold numberOfPayments
    omega
  refine ⟨?_, ?_, ?_, ?_⟩
  · intro h
    rw [app_schedule_get]
    simp only [appRowAt]
    rw [hsz, engine_clamp_eq P a T hP.le ha hT0 _ (le_refl _),
      engine_bal_final P a T ha hT0]
  · intro h
    rw [mortgage_schedule_get]
    simp only [mortgageRowAt]
    rw [hsz, engine_bal_final P a T ha hT0]
  · unfold create_amortization_schedule
    rw [app_principal_map_eq _ _ _ _ _
      (fun j hj => engine_bal_nonneg P a T hP.le ha hT0 j hj),
      mortgageScheduleRows_principal_sum, engine_bal_final P a T ha hT0]
    ring
  · unfold mortgage_schedule
    rw [mortgageScheduleRows_principal_sum, engine_bal_final P a T ha hT0]
    ring

theorem schedule_final_balance_zero_and_principal_sum_witness :
    (0 : ℚ) < 1200 ∧ (0 : ℚ) < 1200 ∧ 1 ≤ 1
      ∧ ((create_amortization_schedule 1200 1200 1).get
          ⟨1 * 12 - 1, by decide⟩).remaining_balance = 0
      ∧ ((mortgage_schedule 1200 1200 1).get
          ⟨1 * 12 - 1, by decide⟩).remaining_balance = 0
      ∧ ((create_amortization_schedule 1200 1200 1).map
          fun row => row.principal).sum = 1200
      ∧ ((mortgage_schedule 1200 1200 1).map fun row => row.principal).sum
          = 1200 :=
  ⟨by norm_num, by norm_num, by norm_num,
    (schedule_final_balance_zero_and_principal_sum 1200 1200 1 (by norm_num)
      (by norm_num) (by norm_num)).1 (by decide),
    (schedule_final_balance_zero_and_principal_sum 1200 1200 1 (by norm_num)
      (by norm_num) (by norm_num)).2.1 (by decide),
    (schedule_final_balance_zero_and_principal_sum 1200 1200 1 (by norm_num)
      (by norm_num) (by norm_num)).2.2.1,
    (schedule_final_balance_zero_and_principal_sum 1200 1200 1 (by norm_num)
      (by norm_num) (by norm_num)).2.2.2⟩

/-- Claim C6: for valid inputs with a positive rate, the remaining-balance
sequence of either schedule is non-increasing in period order. -/
theorem schedule_balance_nonincreasing (P a : ℚ) (T : ℕ)
    (hP : 0 < P) (ha : 0 < a) (hT : 1 ≤ T) :
    (∀ j, ∀ h : j + 1 < (create_amortization_schedule P a T).length,
        ((create_amortization_schedule P a T).get
            ⟨j + 1, h⟩).remaining_balance
          ≤ ((create_amortization_schedule P a T).get
              ⟨j, Nat.lt_of_succ_lt h⟩).remaining_balance)
    ∧ (∀ j, ∀ h : j + 1 < (mortgage_schedule P a T).length,
        ((mortgage_schedule P a T).get ⟨j + 1, h⟩).remaining_balance
          ≤ ((mortgage_schedule P a T).get
              ⟨j, Nat.lt_of_succ_lt h⟩).remaining_balance) := by
  have hT0 : T ≠ 0 := by omega
  constructor
  · intro j h
    have hj : j + 1 < numberOfPayments T := by
      have := appScheduleRows_length (monthly_payment P a T) (monthlyRate a)
        (numberOfPayments T) 1 P
      unfold create_amortization_schedule at h
      omega
    rw [app_schedule_get, app_schedule_get]
    simp only [appRowAt]
    rw [engine_clamp_eq P a T hP.le ha hT0 (j + 1 + 1) (by omega),
      engine_clamp_eq P a T hP.le ha hT0 (j + 1) (by omega)]
    exact engine_bal_antitone P a T hP.le ha hT0 (by omega)
  · intro j h
    rw [mortgage_schedule_get, mortgage_schedule_get]
    simp only [mortgageRowAt]
    exact engine_bal_antitone P a T hP.le ha hT0 (by omega)

theorem schedule_balance_nonincreasing_witness :
    (0 : ℚ) < 1200 ∧ (0 : ℚ) < 1200 ∧ 1 ≤ 1
      ∧ ((create_amortization_schedule 1200 1200 1).get
          ⟨1, by decide⟩).remaining_balance
        ≤ ((create_amortization_schedule 1200 1200 1).get
            ⟨0, by decide⟩).remaining_balance
      ∧ ((mortgage_schedule 1200 1200 1).get ⟨1, by decide⟩).remaining_balance
        ≤ ((mortgage_schedule 1200 1200 1).get
            ⟨0, by decide⟩).remaining_balance :=
  ⟨by norm_num, by norm_num, by norm_num,
    (schedule_balance_nonincreasing 1200 1200 1 (by norm_num) (by norm_num)
      (by norm_num)).1 0 (by decide),
    (schedule_balance_nonincreasing 1200 1200 1 (by norm_num) (by norm_num)
      (by norm_num)).2 0 (by decide)⟩

/-- Claim C7: app.py's generator clamps the running balance at 0, so none
of its records ever carries a negative remaining balance, for arbitrary
inputs; mortgage.py's generator has no clamp, but for valid inputs with a
positive rate its records' balances are nonnegative as well under exact
arithmetic. -/
theorem schedule_balance_nonnegative (P a : ℚ) (T : ℕ) :
    (∀ j, ∀ h : j < (create_amortization_schedule P a T).length,
        0 ≤ ((create_amortization_schedule P a T).get
            ⟨j, h⟩).remaining_balance)
    ∧ (0 < P → 0 < a → 1 ≤ T →
        ∀ j, ∀ h : j < (mortgage_schedule P a T).length,
          0 ≤ ((mortgage_schedule P a T).get ⟨j, h⟩).remaining_balance) := by
  constructor
  · intro j h
    rw [app_schedule_get]
    exact clampBalFrom_succ_nonneg _ _ _ _
  · intro hP ha hT j h
    have hj : j < numberOfPayments T := by
      have := mortgageScheduleRows_length (monthly_payment P a T)
        (monthlyRate a) (numberOfPayments T) 1 P
      unfold mortgage_schedule at h
      omega
    rw [mortgage_schedule_get]
    exact engine_bal_nonneg P a T hP.le ha (by omega) (j + 1) (by omega)

theorem schedule_balance_nonnegative_witness :
    0 ≤ ((create_amortization_schedule (-100) 1200 1).get
        ⟨5, by decide⟩).remaining_balance
    ∧ ((0 : ℚ) < 1200 ∧ (0 : ℚ) < 1200 ∧ 1 ≤ 1
        ∧ 0 ≤ ((mortgage_schedule 1200 1200 1).get
            ⟨5, by decide⟩).remaining_balance) :=
  ⟨(schedule_balance_nonnegative (-100) 1200 1).1 5 (by decide),
    by norm_num, by norm_num, by norm_num,
    (schedule_balance_nonnegative 1200 1200 1).2 (by norm_num) (by norm_num)
      (by norm_num) 5 (by decide)⟩

lemma yearOf_succ (j : ℕ) : yearOf (j + 1) = j / 12 + 1 := by
  obtain ⟨q, hq1, hq2, hq3⟩ :
      ∃ q, q = j / 12 ∧ 12 * q ≤ j ∧ j < 12 * q + 12 :=
    ⟨j / 12, rfl, by omega, by omega⟩
  have hceil : ⌈(((j : ℚ) + 1) / 12 : ℚ)⌉ = (q : ℤ) + 1 := by
    rw [Int.ceil_eq_iff]
    constructor
    · have hcast : (q : ℚ) * 12 ≤ (j : ℚ) := by
        exact_mod_cast (by omega : q * 12 ≤ j)
      push_cast
      rw [lt_div_iff₀ (by norm_num : (0 : ℚ) < 12)]
      linarith
    · have hcast : (j : ℚ) + 1 ≤ (q : ℚ) * 12 + 12 := by
        exact_mod_cast (by omega : j + 1 ≤ q * 12 + 12)
      push_cast
      rw [div_le_iff₀ (by norm_num : (0 : ℚ) < 12)]
      linarith
  unfold yearOf
  push_cast
  rw [hceil]
  omega

lemma dedup_replicate_append (a : ℕ) (l : List ℕ) :
    ∀ k, k ≠ 0 → a ∉ l → (List.replicate k a ++ l).dedup = a :: l.dedup := by
  intro k
  induction k with
  | zero => intro h; omega
  | succ k ih =>
      intro _ hal
      cases k with
      | zero =>
          simp only [List.replicate, List.nil_append, List.singleton_append]
          exact List.dedup_cons_of_not_mem hal
      | succ k =>
          have hmem : a ∈ List.replicate (k + 1) a ++ l := by
            apply List.mem_append_left
            exact List.mem_replicate.mpr ⟨by omega, rfl⟩
          calc (List.replicate (k + 1 + 1) a ++ l).dedup
              = (a :: (List.replicate (k + 1) a ++ l)).dedup := by
                simp [List.replicate_succ]
            _ = (List.replicate (k + 1) a ++ l).dedup :=
                List.dedup_cons_of_mem hmem
            _ = a :: l.dedup := ih (by omega) hal

lemma dedup_year_blocks :
    ∀ (T s : ℕ),
      ((List.range T).flatMap fun t => List.replicate 12 (s + t + 1)).dedup
        = List.range' (s + 1) T := by
  intro T
  induction T with
  | zero => intro s; rfl
  | succ T ih =>
      intro s
      rw [List.range_succ_eq_map, List.flatMap_cons, List.flatMap_map]
      have hfun : (fun a => List.replicate 12 (s + Nat.succ a + 1))
          = fun t => List.replicate 12 (s + 1 + t + 1) := by
        funext t
        exact congrArg (List.replicate 12) (by omega)
      rw [hfun]
      have hnotmem : s + 0 + 1 ∉
          (List.range T).flatMap fun t => List.replicate 12 (s + 1 + t + 1) := by
        intro hmem
        obtain ⟨t, _, hin⟩ := List.mem_flatMap.mp hmem
        have := (List.mem_replicate.mp hin).2
        omega
      rw [dedup_replicate_append _ _ 12 (by omega) hnotmem, ih (s + 1)]
      have h0 : s + 0 + 1 = s + 1 := by omega
      rw [h0, List.range'_succ]

lemma range_twelve_blocks (T : ℕ) :
    (List.range T).flatMap (fun t => List.range' (12 * t) 12)
      = List.range (T * 12) := by
  induction T with
  | zero => rfl
  | succ T ih =>
      rw [List.range_succ, List.flatMap_append, ih, List.flatMap_cons,
        List.flatMap_nil, List.append_nil, List.range_eq_range',
        List.range_eq_range']
      have h1 : 12 * T = 0 + T * 12 := by omega
      have h2 : (T + 1) * 12 = 12 + T * 12 := by omega
      rw [h1, h2]
      exact List.range'_append_1 0 (T * 12) 12

lemma block_years (t : ℕ) :
    (List.range' (12 * t) 12).map (fun j => j / 12 + 1)
      = List.replicate 12 (t + 1) := by
  rw [List.eq_replicate_iff]
  constructor
  · simp
  · intro b hb
    obtain ⟨j, hj, rfl⟩ := List.mem_map.mp hb
    obtain ⟨i, hi, rfl⟩ := List.mem_range'.mp hj
    have : (12 * t + 1 * i) / 12 = t := by omega
    omega

lemma flatMap_ite_block (b : List ℕ) :
    ∀ (T t0 : ℕ),
      ((List.range T).flatMap fun t => if t = t0 then b else [])
        = if t0 < T then b else [] := by
  intro T
  induction T with
  | zero => intro t0; rfl
  | succ T ih =>
      intro t0
      rw [List.range_succ, List.flatMap_append, ih, List.flatMap_cons,
        List.flatMap_nil, List.append_nil]
      rcases Nat.lt_trichotomy t0 T with h | h | h
      · rw [if_pos h, if_neg (by omega), List.append_nil, if_pos (by omega)]
      · rw [if_neg (by omega), if_pos (by omega), List.nil_append,
          if_pos (by omega)]
      · rw [if_neg (by omega), if_neg (by omega), List.nil_append,
          if_neg (by omega)]

lemma block_filter (y : ℕ) (hy : 1 ≤ y) (t : ℕ) :
    (List.range' (12 * t) 12).filter (fun j => j / 12 + 1 == y)
      = if t = y - 1 then List.range' (12 * (y - 1)) 12 else [] := by
  by_cases ht : t = y - 1
  · rw [if_pos ht, ← ht]
    rw [List.filter_eq_self]
    intro j hj
    obtain ⟨i, hi, rfl⟩ := List.mem_range'.mp hj
    have hdiv : (12 * t + 1 * i) / 12 = t := by omega
    simp only [beq_iff_eq]
    omega
  · rw [if_neg ht, List.filter_eq_nil_iff]
    intro j hj
    obtain ⟨i, hi, rfl⟩ := List.mem_range'.mp hj
    have hdiv : (12 * t + 1 * i) / 12 = t := by omega
    simp only [beq_iff_eq]
    omega

lemma foldl_min_map_range' (g : ℕ → ℚ)
    (hg : ∀ x y, x ≤ y → g y ≤ g x) :
    ∀ (m s : ℕ) (c : ℚ),
      ((List.range' s (m + 1)).map g).foldl min c = min c (g (s + m)) := by
  intro m
  induction m with
  | zero =>
      intro s c
      simp [List.range'_succ]
  | succ m ih =>
      intro s c
      rw [List.range'_succ, List.map_cons, List.foldl_cons, ih (s + 1) _]
      have hle : g (s + 1 + m) ≤ g s := hg s (s + 1 + m) (by omega)
      have h1 : s + 1 + m = s + (m + 1) := by omega
      rw [h1] at hle ⊢
      rw [min_assoc, min_eq_right hle]

lemma seriesMin_map_range' (g : ℕ → ℚ)
    (hg : ∀ x y, x ≤ y → g y ≤ g x) (m s : ℕ) :
    seriesMin ((List.range' s (m + 1)).map g) = g (s + m) := by
  cases m with
  | zero => simp [List.range'_succ, seriesMin]
  | succ m =>
      rw [List.range'_succ, List.map_cons]
      show ((List.range' (s + 1) (m + 1)).map g).foldl min (g s) = g (s + (m + 1))
      rw [foldl_min_map_range' g hg m (s + 1) (g s)]
      have hle : g (s + 1 + m) ≤ g s := hg s (s + 1 + m) (by omega)
      have h1 : s + 1 + m = s + (m + 1) := by omega
      rw [h1] at hle ⊢
      exact min_eq_right hle

lemma seriesMin_map_range12 (g : ℕ → ℚ)
    (hg : ∀ x y, x ≤ y → g y ≤ g x) (s : ℕ) :
    seriesMin ((List.range' s 12).map g) = g (s + 11) := by
  have h := seriesMin_map_range' g hg 11 s
  norm_num at h
  exact h

/-- Claim C9: `yearly_balances` applied to the mortgage.py schedule
returns, ordered by year `y = 1, ..., T`, the minimum remaining balance of
the consecutive 12-period bucket of year `y`, namely the balance after the
last period `12 * y` of that year (first conjunct).  Each record's `year`
field is `ceil(periodIndex / 12)` (second conjunct), and the reported value
for a year bounds every remaining balance of that year's bucket from below
(third conjunct), so it is the bucket minimum and — the balance sequence
being non-increasing — the last-in-year balance. -/
theorem yearly_balances_grouping (P a : ℚ) (T : ℕ)
    (hP : 0 < P) (ha : 0 < a) (hT : 1 ≤ T) :
    yearly_balances (mortgage_schedule P a T)
      = (List.range' 1 T).map (fun y =>
          (y, balFrom (monthly_payment P a T) (monthlyRate a) P (12 * y)))
    ∧ (∀ j, ∀ h : j < (mortgage_schedule P a T).length,
        ((mortgage_schedule P a T).get ⟨j, h⟩).year = yearOf (j + 1))
    ∧ (∀ j, ∀ h : j < (mortgage_schedule P a T).length,
        balFrom (monthly_payment P a T) (monthlyRate a) P
            (12 * ((mortgage_schedule P a T).get ⟨j, h⟩).year)
          ≤ ((mortgage_schedule P a T).get ⟨j, h⟩).remaining_balance) := by
  have hT0 : T ≠ 0 := by omega
  have hanti : ∀ x y : ℕ, x ≤ y →
      balFrom (monthly_payment P a T) (monthlyRate a) P y
        ≤ balFrom (monthly_payment P a T) (monthlyRate a) P x :=
    fun x y h => engine_bal_antitone P a T hP.le ha hT0 h
  refine ⟨?_, ?_, ?_⟩
  · have hS : mortgage_schedule P a T
        = (List.range (T * 12)).map
            (mortgageRowAt (monthly_payment P a T) (monthlyRate a) P 1) := by
      unfold mortgage_schedule
      rw [mortgageScheduleRows_eq_map]
      rfl
    unfold yearly_balances
    rw [hS]
    have hyears : (((List.range (T * 12)).map
          (mortgageRowAt (monthly_payment P a T) (monthlyRate a) P 1)).map
            fun row => row.year)
        = (List.range T).flatMap fun t => List.replicate 12 (t + 1) := by
      rw [List.map_map]
      have hcongr : ∀ j ∈ List.range (T * 12),
          ((fun row => row.year)
            ∘ mortgageRowAt (monthly_payment P a T) (monthlyRate a) P 1) j
            = j / 12 + 1 := by
        intro j hj
        simp only [Function.comp, mortgageRowAt]
        rw [Nat.add_comm 1 j, yearOf_succ]
      rw [List.map_congr_left hcongr, ← range_twelve_blocks, List.map_flatMap]
      have hblk : (fun t => (List.range' (12 * t) 12).map fun j => j / 12 + 1)
          = fun t => List.replicate 12 (t + 1) :=
        funext block_years
      rw [hblk]
    have hdedup : ((List.range T).flatMap
          fun t => List.replicate 12 (t + 1)).dedup = List.range' 1 T := by
      have h0 : (fun t => List.replicate 12 (t + 1))
          = fun t => List.replicate 12 (0 + t + 1) :=
        funext fun t => congrArg (List.replicate 12) (by omega)
      rw [h0, dedup_year_blocks T 0]
    have hsorted : List.Sorted (· ≤ ·) (List.range' 1 T) :=
      List.pairwise_le_range' 1 T
    rw [hyears, hdedup, List.mergeSort_eq_self hsorted]
    apply List.map_congr_left
    intro y hy
    have hy1 : 1 ≤ y ∧ y ≤ T := by
      obtain ⟨i, hi, rfl⟩ := List.mem_range'.mp hy
      omega
    have hfil : (((List.range (T * 12)).map
          (mortgageRowAt (monthly_payment P a T) (monthlyRate a) P 1)).filter
            fun row => row.year == y)
        = (List.range' (12 * (y - 1)) 12).map
            (mortgageRowAt (monthly_payment P a T) (monthlyRate a) P 1) := by
      rw [List.filter_map]
      have hcongr2 : ∀ j ∈ List.range (T * 12),
          ((fun row => row.year == y)
            ∘ mortgageRowAt (monthly_payment P a T) (monthlyRate a) P 1) j
            = (j / 12 + 1 == y) := by
        intro j hj
        simp only [Function.comp, mortgageRowAt]
        rw [Nat.add_comm 1 j, yearOf_succ]
      rw [List.filter_congr hcongr2, ← range_twelve_blocks,
        List.filter_flatMap]
      have hblocks : (fun t => (List.range' (12 * t) 12).filter
            fun j => j / 12 + 1 == y)
          = fun t => if t = y - 1
              then List.range' (12 * (y - 1)) 12 else [] :=
        funext fun t => block_filter y hy1.1 t
      rw [hblocks, flatMap_ite_block _ T (y - 1), if_pos (by omega)]
    rw [hfil, List.map_map]
    have hmapbal : ∀ j ∈ List.range' (12 * (y - 1)) 12,
        ((fun row => row.remaining_balance)
          ∘ mortgageRowAt (monthly_payment P a T) (monthlyRate a) P 1) j
          = balFrom (monthly_payment P a T) (monthlyRate a) P (j + 1) := by
      intro j hj
      simp only [Function.comp, mortgageRowAt]
    rw [List.map_congr_left hmapbal,
      seriesMin_map_range12 _ (fun x z hxz => hanti (x + 1) (z + 1)
        (by omega)) (12 * (y - 1))]
    have hfin : 12 * (y - 1) + 11 + 1 = 12 * y := by omega
    rw [hfin]
  · intro j h
    rw [mortgage_schedule_get]
    simp only [mortgageRowAt]
    rw [Nat.add_comm 1 j]
  · intro j h
    rw [mortgage_schedule_get]
    simp only [mortgageRowAt]
    rw [Nat.add_comm 1 j, yearOf_succ]
    exact hanti (j + 1) (12 * (j / 12 + 1)) (by omega)

theorem yearly_balances_grouping_witness :
    (0 : ℚ) < 1200 ∧ (0 : ℚ) < 1200 ∧ 1 ≤ 1
      ∧ yearly_balances (mortgage_schedule 1200 1200 1)
          = (List.range' 1 1).map (fun y =>
              (y, balFrom (monthly_payment 1200 1200 1) (monthlyRate 1200)
                    1200 (12 * y))) :=
  ⟨by norm_num, by norm_num, by norm_num,
    (yearly_balances_grouping 1200 1200 1 (by norm_num) (by norm_num)
      (by norm_num)).1⟩
